import Mathlib

/-!
Verification development for the gravity-model demand pipeline in
`scripts/gravity_model.py`.  Each Python function that the specification
talks about is embedded as a Lean definition over exact arithmetic
(`ℚ` where the Python code only uses field operations, `ℝ` where it uses
transcendental functions such as `**0.5`, `sin`, `cos`, `atan2`).
Fallible Python operations (division that can raise `ZeroDivisionError`,
geometry clips that can raise) are embedded with `Except`.
-/

/-- `TimePeriod(enum.IntEnum)` with members MORNING, AM_RUSH, MID_DAY,
PM_RUSH, EVENING (gravity_model.py lines 32-37). -/
inductive TimePeriod
  | morning
  | amRush
  | midDay
  | pmRush
  | evening
deriving DecidableEq, Repr, Fintype

/-- Iteration order of `for time_period in TimePeriod` (enum definition order). -/
def TimePeriod.all : List TimePeriod :=
  [.morning, .amRush, .midDay, .pmRush, .evening]

/-- `Landuse(enum.Enum)` (lines 39-43). -/
inductive Landuse
  | commercial
  | retail
  | industrial
  | residential
deriving DecidableEq, Repr, Fintype

/-- `Building(enum.Enum)` (lines 45-53). -/
inductive Building
  | apartments
  | barracks
  | bungalow
  | detached
  | dormitory
  | hotel
  | house
  | semidetachedHouse
deriving DecidableEq, Repr, Fintype

/-- `TRIPS_GENERATED` (lines 56-62).  Note the source literal `60_0000.0`
for MID_DAY, i.e. 600000. -/
def TRIPS_GENERATED : TimePeriod → ℚ
  | .morning => 20000
  | .amRush => 150000
  | .midDay => 600000
  | .pmRush => 150000
  | .evening => 20000

/-- `BUILDING_OCCUPANCY` (lines 65-74). -/
def BUILDING_OCCUPANCY : Building → ℚ
  | .apartments => 400
  | .barracks => 200
  | .bungalow => 4
  | .detached => 4
  | .dormitory => 400
  | .hotel => 200
  | .house => 4
  | .semidetachedHouse => 4

/-- `GRAVITY_BETA = 0.5` (line 77).  The comment in the source says the
range is 0.8-2.0, but the configured value is 0.5. -/
noncomputable def GRAVITY_BETA : ℝ := 0.5

/-- `LAND_WEIGHTS` (lines 80-109). -/
def LAND_WEIGHTS : Landuse → TimePeriod → ℚ
  | .commercial, .morning => 0.5
  | .commercial, .amRush => 1.0
  | .commercial, .midDay => 0.7
  | .commercial, .pmRush => 0.5
  | .commercial, .evening => 0.5
  | .retail, .morning => 0.6
  | .retail, .amRush => 1.0
  | .retail, .midDay => 1.0
  | .retail, .pmRush => 1.0
  | .retail, .evening => 0.6
  | .industrial, .morning => 0.5
  | .industrial, .amRush => 1.0
  | .industrial, .midDay => 1.0
  | .industrial, .pmRush => 1.0
  | .industrial, .evening => 0.5
  | .residential, .morning => 0.5
  | .residential, .amRush => 0.5
  | .residential, .midDay => 0.7
  | .residential, .pmRush => 1.0
  | .residential, .evening => 0.7

/-- `SCORE_POIS_WEIGHT = 0.3` (line 112). -/
def SCORE_POIS_WEIGHT : ℚ := 0.3

/-- `SCORE_POPN_WEIGHT = 0.3` (line 113). -/
def SCORE_POPN_WEIGHT : ℚ := 0.3

/-- `SCORE_LAND_WEIGHT = 0.4` (line 114). -/
def SCORE_LAND_WEIGHT : ℚ := 0.4

/-!
## GravityDemandSolver: `gravity_model_demand_matrix` (lines 118-143)

Zones are indexed by `Fin Z`; in the pipeline `zone_id` is dense `0..Z-1`
and equals the row position, so `zone1['zone_id']` is the index itself.
`production`/`attraction` are the per-zone per-period scores, `distances`
the `Z×Z` distance matrix.

Python raises `ZeroDivisionError` at `impedance = 1 / (distance ** GRAVITY_BETA)`
when `distance ** GRAVITY_BETA == 0` (pipeline distances are nonnegative, and
`d ** 0.5 == 0` iff `d == 0`), and at the normalization step
`demand_matrix[idx1][idx2][time_period] /= trips_denominator` when
`trips_denominator == 0`.  Both abort the whole computation, which the
embedding models with `Except.error`; no matrix is returned in either case.
-/

/-- Error taxonomy of `gravity_model_demand_matrix`: both conditions surface
as an uncaught `ZeroDivisionError` in Python. -/
inductive GravityError
  | zeroDistanceImpedance
  | zeroDenominator
deriving DecidableEq, Repr

/-- `impedance = 1 / (distance ** GRAVITY_BETA)` (line 135). -/
noncomputable def impedance (distance : ℝ) : ℝ :=
  1 / distance ^ GRAVITY_BETA

/-- `trips_denominator` accumulated over `zone2 ≠ zone1` for one origin and
period (lines 128-136). -/
noncomputable def tripsDenominator (Z : ℕ) (attraction : Fin Z → TimePeriod → ℝ)
    (distances : Fin Z → Fin Z → ℝ) (i : Fin Z) (t : TimePeriod) : ℝ :=
  ∑ j ∈ Finset.univ.erase i, attraction j t * impedance (distances i j)

/-- One entry of the final demand matrix: the raw numerator
`production1 * attraction2 * impedance` is stored for `j ≠ i` (line 137-138,
the diagonal stays at its initialization value 0 thanks to the
`if idx1 == idx2: continue` guard, line 131), then the normalization loop
(lines 140-142) divides every entry of the row, the diagonal included, by
`trips_denominator`. -/
noncomputable def gravityEntries (Z : ℕ)
    (production attraction : Fin Z → TimePeriod → ℝ)
    (distances : Fin Z → Fin Z → ℝ) : Fin Z → Fin Z → TimePeriod → ℝ :=
  fun i j t =>
    (if i = j then 0 else production i t * attraction j t * impedance (distances i j)) /
      tripsDenominator Z attraction distances i t

open Classical in
/-- `gravity_model_demand_matrix` (lines 118-143) with its two
`ZeroDivisionError` exit paths made explicit. -/
noncomputable def gravity_model_demand_matrix (Z : ℕ)
    (production attraction : Fin Z → TimePeriod → ℝ)
    (distances : Fin Z → Fin Z → ℝ) :
    Except GravityError (Fin Z → Fin Z → TimePeriod → ℝ) :=
  if ∃ i j : Fin Z, i ≠ j ∧ distances i j ^ GRAVITY_BETA = 0 then
    .error .zeroDistanceImpedance
  else if ∃ (i : Fin Z) (t : TimePeriod), tripsDenominator Z attraction distances i t = 0 then
    .error .zeroDenominator
  else
    .ok (gravityEntries Z production attraction distances)

lemma gravity_ok_iff (Z : ℕ) (production attraction : Fin Z → TimePeriod → ℝ)
    (distances : Fin Z → Fin Z → ℝ) (M : Fin Z → Fin Z → TimePeriod → ℝ) :
    gravity_model_demand_matrix Z production attraction distances = .ok M ↔
      (¬ ∃ i j : Fin Z, i ≠ j ∧ distances i j ^ GRAVITY_BETA = 0) ∧
      (¬ ∃ (i : Fin Z) (t : TimePeriod), tripsDenominator Z attraction distances i t = 0) ∧
      M = gravityEntries Z production attraction distances := by
  classical
  unfold gravity_model_demand_matrix
  by_cases h1 : ∃ i j : Fin Z, i ≠ j ∧ distances i j ^ GRAVITY_BETA = 0
  · simp [h1]
  · by_cases h2 : ∃ (i : Fin Z) (t : TimePeriod), tripsDenominator Z attraction distances i t = 0
    · simp [h1, h2]
    · simp [h1, h2, eq_comm]

lemma gravityEntries_row_sum (Z : ℕ)
    (production attraction : Fin Z → TimePeriod → ℝ)
    (distances : Fin Z → Fin Z → ℝ) (i : Fin Z) (t : TimePeriod)
    (hden : tripsDenominator Z attraction distances i t ≠ 0) :
    ∑ j ∈ Finset.univ.erase i, gravityEntries Z production attraction distances i j t =
      production i t := by
  have hsum : ∑ j ∈ Finset.univ.erase i,
      gravityEntries Z production attraction distances i j t =
      (∑ j ∈ Finset.univ.erase i,
        production i t * attraction j t * impedance (distances i j)) /
        tripsDenominator Z attraction distances i t := by
    rw [Finset.sum_div]
    refine Finset.sum_congr rfl ?_
    intro j hj
    have hji : j ≠ i := Finset.ne_of_mem_erase hj
    simp [gravityEntries, (Ne.symm hji : ¬ i = j)]
  rw [hsum]
  have hfact : ∑ j ∈ Finset.univ.erase i,
      production i t * attraction j t * impedance (distances i j) =
      production i t * tripsDenominator Z attraction distances i t := by
    rw [tripsDenominator, Finset.mul_sum]
    refine Finset.sum_congr rfl ?_
    intro j _
    ring
  rw [hfact, mul_div_assoc, div_self hden, mul_one]

/-- C1: for every input with strictly positive off-diagonal distances and
every (origin, period) denominator nonzero, `gravity_model_demand_matrix`
returns the demand matrix and every origin row of it sums (over the
destinations distinct from the origin) to that origin's production, within
the 1e-6 tolerance (the embedding gives the identity exactly). -/
theorem c1_solver_row_sums_to_production (Z : ℕ)
    (production attraction : Fin Z → TimePeriod → ℝ)
    (distances : Fin Z → Fin Z → ℝ)
    (hpos : ∀ i j : Fin Z, i ≠ j → 0 < distances i j)
    (hden : ∀ (i : Fin Z) (t : TimePeriod),
      tripsDenominator Z attraction distances i t ≠ 0) :
    gravity_model_demand_matrix Z production attraction distances =
      .ok (gravityEntries Z production attraction distances) ∧
    ∀ (i : Fin Z) (t : TimePeriod),
      |(∑ j ∈ Finset.univ.erase i,
          gravityEntries Z production attraction distances i j t) -
        production i t| < 1e-6 := by
  constructor
  · rw [gravity_ok_iff]
    refine ⟨?_, ?_, rfl⟩
    · rintro ⟨i, j, hij, hzero⟩
      exact absurd hzero (ne_of_gt (Real.rpow_pos_of_pos (hpos i j hij) _))
    · rintro ⟨i, t, h0⟩
      exact hden i t h0
  · intro i t
    rw [gravityEntries_row_sum Z production attraction distances i t (hden i t)]
    simp only [sub_self, abs_zero]
    norm_num

/-- Example solver input: two zones, unit production, unit attraction,
unit distances. -/
noncomputable def exampleProduction : Fin 2 → TimePeriod → ℝ := fun _ _ => 1

/-- Example attraction scores. -/
noncomputable def exampleAttraction : Fin 2 → TimePeriod → ℝ := fun _ _ => 1

/-- Example distance matrix. -/
noncomputable def exampleDistances : Fin 2 → Fin 2 → ℝ := fun _ _ => 1

lemma exampleDenominator_eq_one (i : Fin 2) (t : TimePeriod) :
    tripsDenominator 2 exampleAttraction exampleDistances i t = 1 := by
  rw [tripsDenominator]
  have : ∀ j ∈ Finset.univ.erase i,
      exampleAttraction j t * impedance (exampleDistances i j) = 1 := by
    intro j _
    simp [exampleAttraction, exampleDistances, impedance, GRAVITY_BETA, Real.one_rpow]
  rw [Finset.sum_congr rfl this, Finset.sum_const,
    Finset.card_erase_of_mem (Finset.mem_univ i)]
  simp

theorem c1_solver_row_sums_to_production_witness :
    ((0 : Fin 2) ≠ (1 : Fin 2) → (0 : ℝ) < exampleDistances 0 1) ∧
    |(∑ j ∈ Finset.univ.erase (0 : Fin 2),
        gravityEntries 2 exampleProduction exampleAttraction exampleDistances 0 j
          TimePeriod.morning) -
      exampleProduction 0 TimePeriod.morning| < 1e-6 := by
  refine ⟨fun _ => by simp [exampleDistances], ?_⟩
  exact (c1_solver_row_sums_to_production 2 exampleProduction exampleAttraction
    exampleDistances (fun i j _ => by simp [exampleDistances])
    (fun i t => by rw [exampleDenominator_eq_one]; norm_num)).2 0 TimePeriod.morning

/-- C3: as soon as some (origin, period) has a zero solver denominator (for
example every destination has zero attraction for that period), the
normalization division raises, the solver aborts with an error, and no
demand matrix is returned (in particular none with the affected entries
coerced to 0). -/
theorem c3_zero_denominator_is_fatal (Z : ℕ)
    (production attraction : Fin Z → TimePeriod → ℝ)
    (distances : Fin Z → Fin Z → ℝ)
    (h : ∃ (i : Fin Z) (t : TimePeriod),
      tripsDenominator Z attraction distances i t = 0) :
    ∃ e, gravity_model_demand_matrix Z production attraction distances = .error e := by
  classical
  unfold gravity_model_demand_matrix
  by_cases h1 : ∃ i j : Fin Z, i ≠ j ∧ distances i j ^ GRAVITY_BETA = 0
  · exact ⟨.zeroDistanceImpedance, by simp [h1]⟩
  · exact ⟨.zeroDenominator, by simp [h1, h]⟩

/-- Example attraction scores that are all zero. -/
noncomputable def exampleZeroAttraction : Fin 2 → TimePeriod → ℝ := fun _ _ => 0

theorem c3_zero_denominator_is_fatal_witness :
    tripsDenominator 2 exampleZeroAttraction exampleDistances 0 TimePeriod.morning = 0 ∧
    ∃ e, gravity_model_demand_matrix 2 exampleProduction exampleZeroAttraction
      exampleDistances = .error e := by
  have h0 : tripsDenominator 2 exampleZeroAttraction exampleDistances 0
      TimePeriod.morning = 0 := by
    simp [tripsDenominator, exampleZeroAttraction]
  exact ⟨h0, c3_zero_denominator_is_fatal 2 exampleProduction exampleZeroAttraction
    exampleDistances ⟨0, TimePeriod.morning, h0⟩⟩

/-- C10: whenever `gravity_model_demand_matrix` returns a matrix, every
diagonal entry is exactly 0 for every period: the diagonal is initialized
to 0, skipped by the `idx1 == idx2` guard during accumulation, and the
normalization pass only divides it by the row denominator. -/
theorem c10_diagonal_is_zero (Z : ℕ)
    (production attraction : Fin Z → TimePeriod → ℝ)
    (distances : Fin Z → Fin Z → ℝ) (M : Fin Z → Fin Z → TimePeriod → ℝ)
    (h : gravity_model_demand_matrix Z production attraction distances = .ok M)
    (i : Fin Z) (t : TimePeriod) : M i i t = 0 := by
  obtain ⟨-, -, hM⟩ := (gravity_ok_iff Z production attraction distances M).1 h
  subst hM
  simp [gravityEntries]

lemma gravity_example_ok :
    gravity_model_demand_matrix 2 exampleProduction exampleAttraction exampleDistances =
      .ok (gravityEntries 2 exampleProduction exampleAttraction exampleDistances) := by
  rw [gravity_ok_iff]
  refine ⟨?_, ?_, rfl⟩
  · rintro ⟨i, j, hij, hzero⟩
    rw [show exampleDistances i j = 1 from rfl, Real.one_rpow] at hzero
    norm_num at hzero
  · rintro ⟨i, t, h0⟩
    rw [exampleDenominator_eq_one] at h0
    norm_num at h0

theorem c10_diagonal_is_zero_witness :
    gravityEntries 2 exampleProduction exampleAttraction exampleDistances 0 0
      TimePeriod.morning = 0 :=
  c10_diagonal_is_zero 2 exampleProduction exampleAttraction exampleDistances
    (gravityEntries 2 exampleProduction exampleAttraction exampleDistances)
    gravity_example_ok 0 TimePeriod.morning

/-!
## ProductionAttractionBalancer: `normalize_zone_production_and_attraction`
(lines 236-248)

A zone here carries its `production` and `attraction` dictionaries
(period -> score).  For each period the code computes the city-wide totals,
rescales every zone's score at that period by `trips_per_hour / total`
(Python raises `ZeroDivisionError` when a total is 0), recomputes the
totals and asserts `abs(ttl_production - ttl_attraction) < 1e-6`
(an `AssertionError` is fatal for the run).
-/

/-- A zone as seen by the balancer: its two period-indexed score dicts. -/
structure ScoreZone where
  production : TimePeriod → ℚ
  attraction : TimePeriod → ℚ

/-- `zones['production'].apply(lambda x: x[t]).sum()` (line 239/245). -/
def sumProduction (zs : List ScoreZone) (t : TimePeriod) : ℚ :=
  (zs.map fun z => z.production t).sum

/-- `zones['attraction'].apply(lambda x: x[t]).sum()` (line 240/246). -/
def sumAttraction (zs : List ScoreZone) (t : TimePeriod) : ℚ :=
  (zs.map fun z => z.attraction t).sum

/-- Error taxonomy of the balancer: `ZeroDivisionError` from the rescale,
`AssertionError` from the post-rescale check. -/
inductive BalanceError
  | zeroDivision
  | assertionFailed
deriving DecidableEq, Repr


/-- The per-zone rescale performed by the `.apply(lambda x: x.update({...}) or x)`
lines (242-243): the dictionaries are updated in place at period `t`. -/
def rescaleZone (t : TimePeriod) (ttlProduction ttlAttraction : ℚ)
    (z : ScoreZone) : ScoreZone :=
  { production := Function.update z.production t
      (z.production t / ttlProduction * TRIPS_GENERATED t)
    attraction := Function.update z.attraction t
      (z.attraction t / ttlAttraction * TRIPS_GENERATED t) }

/-- The body of the `for time_period in TimePeriod` loop (lines 239-247):
rescale every zone's production and attraction at period `t` (Python raises
`ZeroDivisionError` when a total is 0), then assert that the recomputed
totals agree within 1e-6 (`AssertionError` otherwise). -/
def normalizeStep (zs : List ScoreZone) (t : TimePeriod) :
    Except BalanceError (List ScoreZone) :=
  let ttlProduction := sumProduction zs t
  let ttlAttraction := sumAttraction zs t
  if ttlProduction = 0 then .error .zeroDivision
  else if ttlAttraction = 0 then .error .zeroDivision
  else
    let zs' := zs.map (rescaleZone t ttlProduction ttlAttraction)
    if |sumProduction zs' t - sumAttraction zs' t| < 1e-6 then .ok zs'
    else .error .assertionFailed

/-- `normalize_zone_production_and_attraction` (lines 236-248): the period
loop threaded through `Except`. -/
def normalize_zone_production_and_attraction (zs : List ScoreZone) :
    Except BalanceError (List ScoreZone) :=
  TimePeriod.all.foldlM normalizeStep zs

lemma sum_map_div_mul (l : List ℚ) (c v : ℚ) :
    (l.map fun x => x / c * v).sum = l.sum / c * v := by
  induction l with
  | nil => simp
  | cons x xs ih => simp [ih]; ring

lemma sumProduction_map_rescale (zs : List ScoreZone) (t : TimePeriod) (p a : ℚ) :
    sumProduction (zs.map (rescaleZone t p a)) t =
      sumProduction zs t / p * TRIPS_GENERATED t := by
  unfold sumProduction
  rw [List.map_map, show ((fun z => z.production t) ∘ rescaleZone t p a) =
    (fun x => x / p * TRIPS_GENERATED t) ∘ fun z : ScoreZone => z.production t by
      funext z; simp [rescaleZone], ← List.map_map]
  exact sum_map_div_mul _ _ _

lemma sumAttraction_map_rescale (zs : List ScoreZone) (t : TimePeriod) (p a : ℚ) :
    sumAttraction (zs.map (rescaleZone t p a)) t =
      sumAttraction zs t / a * TRIPS_GENERATED t := by
  unfold sumAttraction
  rw [List.map_map, show ((fun z => z.attraction t) ∘ rescaleZone t p a) =
    (fun x => x / a * TRIPS_GENERATED t) ∘ fun z : ScoreZone => z.attraction t by
      funext z; simp [rescaleZone], ← List.map_map]
  exact sum_map_div_mul _ _ _

lemma sums_map_rescale_other (zs : List ScoreZone) (t t' : TimePeriod) (p a : ℚ)
    (h : t' ≠ t) :
    sumProduction (zs.map (rescaleZone t p a)) t' = sumProduction zs t' ∧
    sumAttraction (zs.map (rescaleZone t p a)) t' = sumAttraction zs t' := by
  constructor
  · unfold sumProduction
    rw [List.map_map, show ((fun z => z.production t') ∘ rescaleZone t p a) =
      fun z : ScoreZone => z.production t' by
        funext z; simp [rescaleZone, Function.update_noteq h]]
  · unfold sumAttraction
    rw [List.map_map, show ((fun z => z.attraction t') ∘ rescaleZone t p a) =
      fun z : ScoreZone => z.attraction t' by
        funext z; simp [rescaleZone, Function.update_noteq h]]

lemma normalizeStep_ok (zs : List ScoreZone) (t : TimePeriod)
    (hp : sumProduction zs t ≠ 0) (ha : sumAttraction zs t ≠ 0) :
    normalizeStep zs t = .ok (zs.map (rescaleZone t (sumProduction zs t) (sumAttraction zs t))) ∧
      sumProduction (zs.map (rescaleZone t (sumProduction zs t) (sumAttraction zs t))) t =
        TRIPS_GENERATED t ∧
      sumAttraction (zs.map (rescaleZone t (sumProduction zs t) (sumAttraction zs t))) t =
        TRIPS_GENERATED t := by
  have hps : sumProduction (zs.map (rescaleZone t (sumProduction zs t) (sumAttraction zs t))) t =
      TRIPS_GENERATED t := by
    rw [sumProduction_map_rescale, div_self hp, one_mul]
  have has : sumAttraction (zs.map (rescaleZone t (sumProduction zs t) (sumAttraction zs t))) t =
      TRIPS_GENERATED t := by
    rw [sumAttraction_map_rescale, div_self ha, one_mul]
  refine ⟨?_, hps, has⟩
  unfold normalizeStep
  rw [if_neg hp, if_neg ha, if_pos]
  rw [hps, has, sub_self, abs_zero]
  norm_num

lemma TRIPS_GENERATED_ne_zero (t : TimePeriod) : TRIPS_GENERATED t ≠ 0 := by
  cases t <;> simp [TRIPS_GENERATED]

lemma normalize_fold_ok (l : List TimePeriod) (zs : List ScoreZone)
    (h : ∀ t ∈ l, sumProduction zs t ≠ 0 ∧ sumAttraction zs t ≠ 0) :
    ∃ zs', l.foldlM normalizeStep zs = .ok zs' ∧
      (∀ t ∈ l, sumProduction zs' t = TRIPS_GENERATED t ∧
        sumAttraction zs' t = TRIPS_GENERATED t) ∧
      (∀ t ∉ l, sumProduction zs' t = sumProduction zs t ∧
        sumAttraction zs' t = sumAttraction zs t) := by
  induction l generalizing zs with
  | nil => exact ⟨zs, rfl, by simp, fun t _ => ⟨rfl, rfl⟩⟩
  | cons t l ih =>
    have hp := (h t (List.mem_cons_self t l)).1
    have ha := (h t (List.mem_cons_self t l)).2
    obtain ⟨hstep, hps, has⟩ := normalizeStep_ok zs t hp ha
    have hnext : ∀ t' ∈ l,
        sumProduction (zs.map (rescaleZone t (sumProduction zs t) (sumAttraction zs t))) t' ≠ 0 ∧
        sumAttraction (zs.map (rescaleZone t (sumProduction zs t) (sumAttraction zs t))) t' ≠ 0 := by
      intro t' ht'
      by_cases htt : t' = t
      · subst htt
        rw [hps, has]
        exact ⟨TRIPS_GENERATED_ne_zero t', TRIPS_GENERATED_ne_zero t'⟩
      · obtain ⟨e1, e2⟩ := sums_map_rescale_other zs t t'
          (sumProduction zs t) (sumAttraction zs t) htt
        rw [e1, e2]
        exact h t' (List.mem_cons_of_mem t ht')
    obtain ⟨zs', hfold, hin, hout⟩ :=
      ih (zs.map (rescaleZone t (sumProduction zs t) (sumAttraction zs t))) hnext
    refine ⟨zs', ?_, ?_, ?_⟩
    · rw [List.foldlM_cons, hstep]
      simpa using hfold
    · intro t' ht'
      by_cases hl : t' ∈ l
      · exact hin t' hl
      · have : t' = t := by
          rcases List.mem_cons.1 ht' with h0 | h0
          · exact h0
          · exact absurd h0 hl
        subst this
        obtain ⟨o1, o2⟩ := hout t' hl
        rw [o1, o2, hps, has]
        exact ⟨rfl, rfl⟩
    · intro t' ht'
      have h1 : t' ≠ t := fun e => ht' (e ▸ List.mem_cons_self t l)
      have h2 : t' ∉ l := fun e => ht' (List.mem_cons_of_mem t e)
      obtain ⟨o1, o2⟩ := hout t' h2
      obtain ⟨e1, e2⟩ := sums_map_rescale_other zs t t'
        (sumProduction zs t) (sumAttraction zs t) h1
      rw [o1, o2, e1, e2]
      exact ⟨rfl, rfl⟩

lemma mem_TimePeriod_all (t : TimePeriod) : t ∈ TimePeriod.all := by
  cases t <;> simp [TimePeriod.all]

/-- C2: for every zones input whose per-period total production and total
attraction are all nonzero, `normalize_zone_production_and_attraction`
succeeds (no `ZeroDivisionError`, and the `assert` at line 247 — the fatal
check guarding against silently proceeding with a violated post-condition —
passes), and afterwards the city-wide production and attraction sums for
every period both equal the configured target trip volume
`TRIPS_GENERATED t`, within the 1e-6 tolerance (exactly, in the embedding's
exact arithmetic). -/
theorem c2_balancer_totals_equal_target (zs : List ScoreZone)
    (h : ∀ t, sumProduction zs t ≠ 0 ∧ sumAttraction zs t ≠ 0) :
    ∃ zs', normalize_zone_production_and_attraction zs = .ok zs' ∧
      ∀ t, |sumProduction zs' t - TRIPS_GENERATED t| < 1e-6 ∧
        |sumAttraction zs' t - TRIPS_GENERATED t| < 1e-6 := by
  obtain ⟨zs', hfold, hin, -⟩ :=
    normalize_fold_ok TimePeriod.all zs (fun t _ => h t)
  refine ⟨zs', hfold, ?_⟩
  intro t
  obtain ⟨e1, e2⟩ := hin t (mem_TimePeriod_all t)
  rw [e1, e2, sub_self, abs_zero]
  norm_num

/-- Example balancer input: a single zone with unit scores. -/
def exampleScoreZones : List ScoreZone :=
  [{ production := fun _ => 1, attraction := fun _ => 1 }]

theorem c2_balancer_totals_equal_target_witness :
    (∀ t, sumProduction exampleScoreZones t ≠ 0 ∧
      sumAttraction exampleScoreZones t ≠ 0) ∧
    ∃ zs', normalize_zone_production_and_attraction exampleScoreZones = .ok zs' ∧
      ∀ t, |sumProduction zs' t - TRIPS_GENERATED t| < 1e-6 ∧
        |sumAttraction zs' t - TRIPS_GENERATED t| < 1e-6 :=
  ⟨fun t => by constructor <;> norm_num [sumProduction, sumAttraction, exampleScoreZones],
    c2_balancer_totals_equal_target exampleScoreZones fun t => by
      constructor <;> norm_num [sumProduction, sumAttraction, exampleScoreZones]⟩

/-!
## ZonePartitioner: `divide_into_zones` (lines 301-322)

The bounding extent is the tuple `x_min, y_min, x_max, y_max`; the function
computes `x_step = x_range / num_cols` and `y_step = y_range / num_rows`
(Python raises `ZeroDivisionError` when a divisor is 0; a negative count
makes `range(...)` empty, so an empty zone list is returned without error),
then emits one `shp.geometry.box(x1, y1, x2, y2)` per `(i, j)` in row-major
order with `zone_id = i * num_cols + j`.
-/

/-- The city bounding extent `x_min, y_min, x_max, y_max = city.nodes.total_bounds`. -/
structure Extent where
  x_min : ℚ
  y_min : ℚ
  x_max : ℚ
  y_max : ℚ
deriving DecidableEq, Repr

/-- One emitted zone: the corners of `shp.geometry.box(x1, y1, x2, y2)`
plus its `zone_id`. -/
structure GridZone where
  x1 : ℚ
  y1 : ℚ
  x2 : ℚ
  y2 : ℚ
  zone_id : ℤ
deriving DecidableEq, Repr

/-- The zone built in the loop body (lines 311-318) for grid position
`(i, j)`. -/
def zoneAt (e : Extent) (numRows numCols : ℤ) (i j : ℕ) : GridZone :=
  let x_step := (e.x_max - e.x_min) / (numCols : ℚ)
  let y_step := (e.y_max - e.y_min) / (numRows : ℚ)
  let x1 := e.x_min + (j : ℚ) * x_step
  let y1 := e.y_min + (i : ℚ) * y_step
  { x1 := x1, y1 := y1, x2 := x1 + x_step, y2 := y1 + y_step,
    zone_id := (i : ℤ) * numCols + (j : ℤ) }

/-- The zone list built by the nested `for i in range(num_rows)` /
`for j in range(num_cols)` loops (lines 309-318), in emission order. -/
def gridZones (e : Extent) (numRows numCols : ℤ) : List GridZone :=
  (List.range numRows.toNat).flatMap fun i =>
    (List.range numCols.toNat).map fun j => zoneAt e numRows numCols i j

/-- The only exception `divide_into_zones` itself can raise: the
`ZeroDivisionError` from `x_range / num_cols` or `y_range / num_rows`. -/
inductive PartitionError
  | zeroDivision
deriving DecidableEq, Repr

/-- `divide_into_zones` (lines 301-322). -/
def divide_into_zones (e : Extent) (numRows numCols : ℤ) :
    Except PartitionError (List GridZone) :=
  if numCols = 0 ∨ numRows = 0 then .error .zeroDivision
  else .ok (gridZones e numRows numCols)

lemma flatMap_range_map_eq (m : ℕ) (hm : 0 < m) {α : Type}
    (f : ℕ → ℕ → α) (n : ℕ) :
    (List.range n).flatMap (fun i => (List.range m).map (f i)) =
      (List.range (n * m)).map fun k => f (k / m) (k % m) := by
  induction n with
  | zero => simp
  | succ n ih =>
    rw [List.range_succ, List.flatMap_append, ih, Nat.succ_mul, List.range_add,
      List.map_append]
    congr 1
    · simp only [List.flatMap_cons, List.flatMap_nil, List.append_nil]
      rw [List.map_map]
      refine List.map_congr_left ?_
      intro j hj
      have hj' : j < m := List.mem_range.1 hj
      have h1 : (n * m + j) / m = n := by
        rw [Nat.add_comm, Nat.add_mul_div_right _ _ hm, Nat.div_eq_of_lt hj', Nat.zero_add]
      have h2 : (n * m + j) % m = j := by
        rw [Nat.add_comm, Nat.add_mul_mod_self_right, Nat.mod_eq_of_lt hj']
      simp [Function.comp_def, h1, h2]


lemma mem_gridZones_iff (e : Extent) (numRows numCols : ℤ) (z : GridZone) :
    z ∈ gridZones e numRows numCols ↔
      ∃ i, i < numRows.toNat ∧ ∃ j, j < numCols.toNat ∧
        z = zoneAt e numRows numCols i j := by
  simp only [gridZones, List.mem_flatMap, List.mem_map, List.mem_range]
  constructor
  · rintro ⟨i, hi, j, hj, rfl⟩
    exact ⟨i, hi, j, hj, rfl⟩
  · rintro ⟨i, hi, j, hj, rfl⟩
    exact ⟨i, hi, j, hj, rfl⟩

lemma gridZones_eq_map (e : Extent) (numRows numCols : ℤ)
    (hc : 0 < numCols.toNat) :
    gridZones e numRows numCols =
      (List.range (numRows.toNat * numCols.toNat)).map fun k =>
        zoneAt e numRows numCols (k / numCols.toNat) (k % numCols.toNat) :=
  flatMap_range_map_eq numCols.toNat hc _ numRows.toNat

lemma gridZones_length (e : Extent) (numRows numCols : ℤ)
    (hc : 0 < numCols.toNat) :
    (gridZones e numRows numCols).length = numRows.toNat * numCols.toNat := by
  rw [gridZones_eq_map e numRows numCols hc, List.length_map, List.length_range]

lemma gridZones_getElem? (e : Extent) (numRows numCols : ℤ)
    (hc : 0 < numCols.toNat) (k : ℕ)
    (hk : k < numRows.toNat * numCols.toNat) :
    (gridZones e numRows numCols)[k]? =
      some (zoneAt e numRows numCols (k / numCols.toNat) (k % numCols.toNat)) := by
  rw [gridZones_eq_map e numRows numCols hc, List.getElem?_map,
    List.getElem?_range hk]
  rfl

lemma grid_cover_1d (al bl x : ℚ) (n : ℤ) (hn : 0 < n) (hab : al < bl)
    (h1 : al ≤ x) (h2 : x ≤ bl) :
    ∃ k : ℕ, k < n.toNat ∧ al + (k : ℚ) * ((bl - al) / (n : ℚ)) ≤ x ∧
      x ≤ al + (k : ℚ) * ((bl - al) / (n : ℚ)) + (bl - al) / (n : ℚ) := by
  set s : ℚ := (bl - al) / (n : ℚ) with hs_def
  have hnq : (0 : ℚ) < (n : ℚ) := by exact_mod_cast hn
  have hs : 0 < s := div_pos (sub_pos.2 hab) hnq
  have hu0 : 0 ≤ (x - al) / s := div_nonneg (sub_nonneg.2 h1) hs.le
  set m : ℤ := ⌊(x - al) / s⌋ with hm_def
  have hm0 : 0 ≤ m := Int.floor_nonneg.2 hu0
  have hn1 : 1 ≤ n.toNat := by omega
  refine ⟨min (n.toNat - 1) m.toNat, by omega, ?_, ?_⟩
  · have hkm : ((min (n.toNat - 1) m.toNat : ℕ) : ℚ) ≤ (m : ℚ) := by
      have : (min (n.toNat - 1) m.toNat : ℕ) ≤ m.toNat := Nat.min_le_right _ _
      calc ((min (n.toNat - 1) m.toNat : ℕ) : ℚ) ≤ (m.toNat : ℚ) := by exact_mod_cast this
        _ = (m : ℚ) := by exact_mod_cast Int.toNat_of_nonneg hm0
    have hmx : (m : ℚ) ≤ (x - al) / s := Int.floor_le _
    have : ((min (n.toNat - 1) m.toNat : ℕ) : ℚ) * s ≤ x - al := by
      calc ((min (n.toNat - 1) m.toNat : ℕ) : ℚ) * s ≤ ((x - al) / s) * s :=
        mul_le_mul_of_nonneg_right (hkm.trans hmx) hs.le
        _ = x - al := div_mul_cancel₀ _ hs.ne'
    linarith
  · by_cases hcase : m.toNat ≤ n.toNat - 1
    · have hk_eq : min (n.toNat - 1) m.toNat = m.toNat := Nat.min_eq_right hcase
      rw [hk_eq]
      have hlt : (x - al) / s < (m : ℚ) + 1 := Int.lt_floor_add_one _
      have hmc : (m.toNat : ℚ) = (m : ℚ) := by exact_mod_cast Int.toNat_of_nonneg hm0
      have : x - al < ((m.toNat : ℚ) + 1) * s := by
        rw [hmc]
        calc x - al = ((x - al) / s) * s := (div_mul_cancel₀ _ hs.ne').symm
          _ < ((m : ℚ) + 1) * s := mul_lt_mul_of_pos_right hlt hs
      nlinarith [this]
    · have hk_eq : min (n.toNat - 1) m.toNat = n.toNat - 1 := by omega
      rw [hk_eq]
      have hns : ((n.toNat : ℚ)) * s = bl - al := by
        have h1 : ((n.toNat : ℚ)) = (n : ℚ) := by
          rw [show (n.toNat : ℚ) = ((n.toNat : ℤ) : ℚ) by push_cast; ring,
            Int.toNat_of_nonneg hn.le]
        rw [h1, hs_def, mul_div_cancel₀ _ hnq.ne']
      have : ((n.toNat - 1 : ℕ) : ℚ) + 1 = (n.toNat : ℚ) := by
        have : ((n.toNat - 1 : ℕ) : ℚ) = (n.toNat : ℚ) - 1 := by
          have : (1 : ℕ) ≤ n.toNat := hn1
          push_cast [Nat.cast_sub this]
          ring
        rw [this]; ring
      calc x ≤ bl := h2
        _ = al + ((n.toNat : ℚ)) * s := by rw [hns]; ring
        _ = al + (((n.toNat - 1 : ℕ) : ℚ) + 1) * s := by rw [this]
        _ = al + ((n.toNat - 1 : ℕ) : ℚ) * s + s := by ring

lemma grid_unique_1d (al s x : ℚ) (hs : 0 < s) (k k' : ℕ)
    (h1 : al + (k : ℚ) * s < x) (h2 : x < al + (k : ℚ) * s + s)
    (h1' : al + (k' : ℚ) * s < x) (h2' : x < al + (k' : ℚ) * s + s) : k = k' := by
  have key : ∀ a b : ℕ, a < b → al + (a : ℚ) * s < x → x < al + (a : ℚ) * s + s →
      al + (b : ℚ) * s < x → False := by
    intro a b hab ha1 ha2 hb1
    have hcast : (a : ℚ) + 1 ≤ (b : ℚ) := by exact_mod_cast hab
    have : al + (a : ℚ) * s + s ≤ al + (b : ℚ) * s := by nlinarith
    linarith
  rcases lt_trichotomy k k' with h | h | h
  · exact (key k k' h h1 h2 h1').elim
  · exact h
  · exact (key k' k h h1' h2' h1).elim

lemma grid_inside_1d (al bl : ℚ) (n : ℤ) (hn : 0 < n) (hab : al < bl)
    (j : ℕ) (hj : j < n.toNat) :
    al ≤ al + (j : ℚ) * ((bl - al) / (n : ℚ)) ∧
      al + (j : ℚ) * ((bl - al) / (n : ℚ)) + (bl - al) / (n : ℚ) ≤ bl := by
  have hnq : (0 : ℚ) < (n : ℚ) := by exact_mod_cast hn
  have hs : 0 < (bl - al) / (n : ℚ) := div_pos (sub_pos.2 hab) hnq
  constructor
  · have : 0 ≤ (j : ℚ) * ((bl - al) / (n : ℚ)) :=
      mul_nonneg (Nat.cast_nonneg j) hs.le
    linarith
  · have hj1 : ((j : ℚ) + 1) ≤ (n : ℚ) := by
      have h1 : j + 1 ≤ n.toNat := hj
      have h2 : ((j : ℚ) + 1) ≤ (n.toNat : ℚ) := by exact_mod_cast h1
      have h3 : (n.toNat : ℚ) = (n : ℚ) := by exact_mod_cast Int.toNat_of_nonneg hn.le
      linarith [h3 ▸ h2]
    have hmul : ((j : ℚ) + 1) * ((bl - al) / (n : ℚ)) ≤
        (n : ℚ) * ((bl - al) / (n : ℚ)) :=
      mul_le_mul_of_nonneg_right hj1 hs.le
    have hns : (n : ℚ) * ((bl - al) / (n : ℚ)) = bl - al :=
      mul_div_cancel₀ _ hnq.ne'
    nlinarith [hmul, hns]

lemma index_div_mod (i j c : ℕ) (hc : 0 < c) (hj : j < c) :
    (i * c + j) / c = i ∧ (i * c + j) % c = j := by
  constructor
  · rw [Nat.add_comm, Nat.add_mul_div_right _ _ hc, Nat.div_eq_of_lt hj, Nat.zero_add]
  · rw [Nat.add_comm, Nat.add_mul_mod_self_right, Nat.mod_eq_of_lt hj]

/-- C5: for positive grid dimensions and a non-degenerate extent,
`divide_into_zones` succeeds and returns exactly `num_rows * num_cols`
zones; the k-th emitted zone has `zone_id = k` (row-major emission), the
zone of grid position `(i, j)` sits at list index `i * num_cols + j` with
`zone_id = i * num_cols + j`; every zone is a rectangle of width
`extent_width / num_cols` and height `extent_height / num_rows` lying
inside the extent; the zones cover every point of the extent; and the open
interiors of two distinct zones never share a point. -/
theorem c5_partitioner_covers_extent (e : Extent) (numRows numCols : ℤ)
    (hr : 0 < numRows) (hc : 0 < numCols)
    (hx : e.x_min < e.x_max) (hy : e.y_min < e.y_max) :
    divide_into_zones e numRows numCols = .ok (gridZones e numRows numCols) ∧
    ((gridZones e numRows numCols).length : ℤ) = numRows * numCols ∧
    (∀ k : ℕ, ∀ z : GridZone, (gridZones e numRows numCols)[k]? = some z →
      z.zone_id = (k : ℤ)) ∧
    (∀ i j : ℕ, i < numRows.toNat → j < numCols.toNat →
      (gridZones e numRows numCols)[i * numCols.toNat + j]? =
        some (zoneAt e numRows numCols i j) ∧
      (zoneAt e numRows numCols i j).zone_id = (i : ℤ) * numCols + (j : ℤ)) ∧
    (∀ z ∈ gridZones e numRows numCols,
      z.x2 - z.x1 = (e.x_max - e.x_min) / (numCols : ℚ) ∧
      z.y2 - z.y1 = (e.y_max - e.y_min) / (numRows : ℚ) ∧
      e.x_min ≤ z.x1 ∧ z.x2 ≤ e.x_max ∧ e.y_min ≤ z.y1 ∧ z.y2 ≤ e.y_max) ∧
    (∀ x y : ℚ, e.x_min ≤ x → x ≤ e.x_max → e.y_min ≤ y → y ≤ e.y_max →
      ∃ z ∈ gridZones e numRows numCols,
        z.x1 ≤ x ∧ x ≤ z.x2 ∧ z.y1 ≤ y ∧ y ≤ z.y2) ∧
    (∀ z ∈ gridZones e numRows numCols, ∀ z' ∈ gridZones e numRows numCols,
      z ≠ z' → ∀ x y : ℚ,
        ¬(z.x1 < x ∧ x < z.x2 ∧ z.y1 < y ∧ y < z.y2 ∧
          z'.x1 < x ∧ x < z'.x2 ∧ z'.y1 < y ∧ y < z'.y2)) := by
  have hcn : 0 < numCols.toNat := by omega
  have hrn : 0 < numRows.toNat := by omega
  have hcq : (numCols.toNat : ℚ) = (numCols : ℚ) := by
    exact_mod_cast Int.toNat_of_nonneg hc.le
  have hrq : (numRows.toNat : ℚ) = (numRows : ℚ) := by
    exact_mod_cast Int.toNat_of_nonneg hr.le
  refine ⟨?_, ?_, ?_, ?_, ?_, ?_, ?_⟩
  · rw [divide_into_zones, if_neg]
    push_neg
    omega
  · rw [gridZones_length e numRows numCols hcn]
    push_cast [Int.toNat_of_nonneg hr.le, Int.toNat_of_nonneg hc.le]
    ring
  · intro k z hkz
    by_cases hk : k < numRows.toNat * numCols.toNat
    · rw [gridZones_getElem? e numRows numCols hcn k hk] at hkz
      have hz := Option.some_injective _ hkz
      subst hz
      show ((k / numCols.toNat : ℕ) : ℤ) * numCols + ((k % numCols.toNat : ℕ) : ℤ) = (k : ℤ)
      calc ((k / numCols.toNat : ℕ) : ℤ) * numCols + ((k % numCols.toNat : ℕ) : ℤ)
          = ((k / numCols.toNat : ℕ) : ℤ) * ((numCols.toNat : ℕ) : ℤ) +
            ((k % numCols.toNat : ℕ) : ℤ) := by
            rw [show ((numCols.toNat : ℕ) : ℤ) = numCols from Int.toNat_of_nonneg hc.le]
        _ = ((k / numCols.toNat * numCols.toNat + k % numCols.toNat : ℕ) : ℤ) := by
            push_cast
            ring
        _ = (k : ℤ) := by rw [Nat.div_add_mod' k numCols.toNat]
    · have hlen : (gridZones e numRows numCols).length ≤ k := by
        rw [gridZones_length e numRows numCols hcn]
        omega
      rw [List.getElem?_eq_none hlen] at hkz
      exact absurd hkz (by simp)
  · intro i j hi hj
    have hidx : i * numCols.toNat + j < numRows.toNat * numCols.toNat := by
      have h1 : i * numCols.toNat + j < (i + 1) * numCols.toNat := by
        rw [Nat.succ_mul]
        omega
      have h2 : (i + 1) * numCols.toNat ≤ numRows.toNat * numCols.toNat :=
        Nat.mul_le_mul_right _ hi
      omega
    obtain ⟨hdiv, hmod⟩ := index_div_mod i j numCols.toNat hcn hj
    refine ⟨?_, ?_⟩
    · rw [gridZones_getElem? e numRows numCols hcn _ hidx, hdiv, hmod]
    · simp [zoneAt]
  · intro z hz
    obtain ⟨i, hi, j, hj, rfl⟩ := (mem_gridZones_iff e numRows numCols z).1 hz
    obtain ⟨hx1, hx2⟩ := grid_inside_1d e.x_min e.x_max numCols hc hx j hj
    obtain ⟨hy1, hy2⟩ := grid_inside_1d e.y_min e.y_max numRows hr hy i hi
    refine ⟨by simp [zoneAt], by simp [zoneAt], ?_, ?_, ?_, ?_⟩
    · simpa [zoneAt] using hx1
    · simpa [zoneAt] using hx2
    · simpa [zoneAt] using hy1
    · simpa [zoneAt] using hy2
  · intro x y hxl hxr hyl hyr
    obtain ⟨j, hj, hjx1, hjx2⟩ := grid_cover_1d e.x_min e.x_max x numCols hc hx hxl hxr
    obtain ⟨i, hi, hiy1, hiy2⟩ := grid_cover_1d e.y_min e.y_max y numRows hr hy hyl hyr
    refine ⟨zoneAt e numRows numCols i j,
      (mem_gridZones_iff e numRows numCols _).2 ⟨i, hi, j, hj, rfl⟩, ?_, ?_, ?_, ?_⟩
    · simpa [zoneAt] using hjx1
    · simpa [zoneAt] using hjx2
    · simpa [zoneAt] using hiy1
    · simpa [zoneAt] using hiy2
  · intro z hz z' hz' hne x y hboth
    obtain ⟨i, hi, j, hj, rfl⟩ := (mem_gridZones_iff e numRows numCols z).1 hz
    obtain ⟨i', hi', j', hj', rfl⟩ := (mem_gridZones_iff e numRows numCols z').1 hz'
    have hsx : 0 < (e.x_max - e.x_min) / (numCols : ℚ) := by
      refine div_pos (sub_pos.2 hx) ?_
      exact_mod_cast hc
    have hsy : 0 < (e.y_max - e.y_min) / (numRows : ℚ) := by
      refine div_pos (sub_pos.2 hy) ?_
      exact_mod_cast hr
    obtain ⟨b1, b2, b3, b4, b5, b6, b7, b8⟩ := hboth
    simp only [zoneAt] at b1 b2 b3 b4 b5 b6 b7 b8
    have hjj : j = j' := grid_unique_1d e.x_min ((e.x_max - e.x_min) / (numCols : ℚ))
      x hsx j j' b1 b2 b5 b6
    have hii : i = i' := grid_unique_1d e.y_min ((e.y_max - e.y_min) / (numRows : ℚ))
      y hsy i i' b3 b4 b7 b8
    exact hne (by rw [hii, hjj])

/-- Example extent for the partitioner witness. -/
def exampleExtent : Extent := { x_min := 0, y_min := 0, x_max := 1, y_max := 1 }

theorem c5_partitioner_covers_extent_witness :
    (0 : ℤ) < 1 ∧ exampleExtent.x_min < exampleExtent.x_max ∧
    divide_into_zones exampleExtent 1 1 = .ok (gridZones exampleExtent 1 1) ∧
    ((gridZones exampleExtent 1 1).length : ℤ) = 1 * 1 :=
  ⟨by norm_num, by norm_num [exampleExtent],
    (c5_partitioner_covers_extent exampleExtent 1 1 (by norm_num) (by norm_num)
      (by norm_num [exampleExtent]) (by norm_num [exampleExtent])).1,
    (c5_partitioner_covers_extent exampleExtent 1 1 (by norm_num) (by norm_num)
      (by norm_num [exampleExtent]) (by norm_num [exampleExtent])).2.1⟩

/-!
## Configuration validation (C9)

The only startup validation in the module is the module-level
`assert SCORE_POIS_WEIGHT + SCORE_POPN_WEIGHT + SCORE_LAND_WEIGHT == 1.0`
(line 115).  `GRAVITY_BETA` is never validated (its comment documents the
range 0.8-2.0 while the configured value is 0.5), and `divide_into_zones`
has no dimension or extent validation: it raises only the
`ZeroDivisionError` of `x_range / num_cols` / `y_range / num_rows`.
-/

/-- The module-level startup assert (line 115), the only configuration
check the script performs before computing. -/
def startupWeightCheck : Prop :=
  SCORE_POIS_WEIGHT + SCORE_POPN_WEIGHT + SCORE_LAND_WEIGHT = 1

/-- A zero-area extent. -/
def degenerateExtent : Extent := { x_min := 0, y_min := 0, x_max := 0, y_max := 0 }

/-- C9 counterexample: the claim is false on the code.  The startup check
passes even though `GRAVITY_BETA = 0.5` lies outside the documented
0.8-2.0 range (so an invalid decay exponent is not fatal at startup), the
partitioner silently returns an empty zone list for the non-positive row
count -1 instead of failing, and it happily partitions a degenerate
zero-area extent. -/
theorem c9_no_config_validation_counterexample :
    startupWeightCheck ∧
    GRAVITY_BETA < 0.8 ∧
    divide_into_zones exampleExtent (-1) 3 = .ok [] ∧
    divide_into_zones degenerateExtent 2 2 = .ok (gridZones degenerateExtent 2 2) := by
  refine ⟨?_, ?_, ?_, ?_⟩
  · norm_num [startupWeightCheck, SCORE_POIS_WEIGHT, SCORE_POPN_WEIGHT, SCORE_LAND_WEIGHT]
  · norm_num [GRAVITY_BETA]
  · rw [divide_into_zones, if_neg (by norm_num)]
    rfl
  · rw [divide_into_zones, if_neg (by norm_num)]

/-- C9 amended: the only configuration check performed before any
computation is the attraction-weight sum assert (which passes), and the
partitioner fails exactly when `num_cols = 0` or `num_rows = 0` (the
`ZeroDivisionError` of the step computation); negative dimensions yield an
empty zone list and a degenerate extent is not rejected. -/
theorem c9_amended_only_division_guard :
    startupWeightCheck ∧
    ∀ (e : Extent) (numRows numCols : ℤ),
      (∃ err, divide_into_zones e numRows numCols = .error err) ↔
        (numCols = 0 ∨ numRows = 0) := by
  constructor
  · norm_num [startupWeightCheck, SCORE_POIS_WEIGHT, SCORE_POPN_WEIGHT, SCORE_LAND_WEIGHT]
  · intro e numRows numCols
    constructor
    · rintro ⟨err, herr⟩
      by_contra hcond
      rw [divide_into_zones, if_neg hcond] at herr
      exact absurd herr (by simp)
    · intro hcond
      exact ⟨.zeroDivision, by rw [divide_into_zones, if_pos hcond]⟩

theorem c9_amended_only_division_guard_witness :
    ∃ err, divide_into_zones exampleExtent 5 0 = .error err :=
  (c9_amended_only_division_guard.2 exampleExtent 5 0).mpr (Or.inl rfl)

/-!
## ZoneAttributeAggregator: `populate_zone_attributes` (lines 145-191)

The geometry objects of the `City` bundle are external (shapely /
geopandas); the embedding keeps each zone's geometry abstract as its area
and models the city's spatial operations as functions of that geometry:
`city.nodes.intersects(geom).sum()` and the three `clip` calls, each of
which can raise (modeled with `Except`).  There is no try/except anywhere
in `populate_zone_attributes`: a raised clip exception propagates out of
the function and aborts the whole batch.
-/

/-- A zone polygon as consumed by the aggregator: only its area is used. -/
structure ZoneGeometry where
  area : ℚ
deriving DecidableEq, Repr

/-- A row of the zones frame as consumed by the aggregator. -/
structure PopZone where
  zone_id : ℕ
  geometry : ZoneGeometry
deriving DecidableEq, Repr

/-- A POI feature; `amenity` is its classification tag (may be missing).
`pois['amenity'].value_counts().sum()` counts the non-null tags. -/
structure POI where
  amenity : Option String
deriving DecidableEq, Repr

/-- A land-use feature: its geometry's area and its `landuse` column (the
loader restricts it to the four `Landuse` values). -/
structure LandFeature where
  area : ℚ
  landuse : Landuse
deriving DecidableEq, Repr

/-- A building footprint; `building` is its type column (unrecognized
types fall back to occupancy 0 through `.get(building_type, 0)`). -/
structure BuildingFeature where
  building : Option Building
deriving DecidableEq, Repr

/-- An exception raised by a geometry operation (invalid/degenerate input
geometry during a clip). -/
inductive GeometryError
  | invalidGeometry
deriving DecidableEq, Repr

/-- The `City` bundle as consumed by `populate_zone_attributes`: the road
nodes intersection count and the three clip operations, each fallible. -/
structure PopulateCity where
  nodesIntersects : ZoneGeometry → ℕ
  clipPois : ZoneGeometry → Except GeometryError (List POI)
  clipLanduse : ZoneGeometry → Except GeometryError (List LandFeature)
  clipBuildings : ZoneGeometry → Except GeometryError (List BuildingFeature)

/-- Exceptions that can propagate out of `populate_zone_attributes`: a clip
failure, or the `ZeroDivisionError` of `v / total_area` for a zero-area zone. -/
inductive PopulateError
  | geometry (e : GeometryError)
  | zeroDivision
deriving DecidableEq, Repr

/-- `BUILDING_OCCUPANCY.get(building_type, 0)` (line 169). -/
def buildingOccupancy : Option Building → ℚ
  | some b => BUILDING_OCCUPANCY b
  | none => 0

/-- The per-zone attributes computed by the aggregator (`population`,
`land` percentage shares, `pois` count), keyed by `zone_id`. -/
structure ZoneAttrs where
  zone_id : ℕ
  population : ℚ
  land : Landuse → ℚ
  pois : ℕ

/-- The body of the `for _, zone in zones.iterrows()` loop (lines 150-186):
a zone with no road nodes gets all-zero attributes and the loop continues;
otherwise the three clips run (any raise propagates), the population is the
occupancy sum over clipped buildings, the land shares are per-type clipped
areas over the zone area times 100, and the POI count is the number of
non-null amenity tags. -/
def populateZone (city : PopulateCity) (zone : PopZone) :
    Except PopulateError ZoneAttrs :=
  if city.nodesIntersects zone.geometry = 0 then
    .ok { zone_id := zone.zone_id, population := 0, land := fun _ => 0, pois := 0 }
  else
    match city.clipPois zone.geometry with
    | .error e => .error (.geometry e)
    | .ok pois =>
      match city.clipLanduse zone.geometry with
      | .error e => .error (.geometry e)
      | .ok landuse =>
        match city.clipBuildings zone.geometry with
        | .error e => .error (.geometry e)
        | .ok buildings =>
          let population := (buildings.map fun b => buildingOccupancy b.building).sum
          let areaByType : Landuse → ℚ := fun lt =>
            ((landuse.filter fun l => l.landuse == lt).map fun l => l.area).sum
          if zone.geometry.area = 0 then .error .zeroDivision
          else
            .ok { zone_id := zone.zone_id
                  population := population
                  land := fun lt => areaByType lt / zone.geometry.area * 100
                  pois := (pois.filter fun p => p.amenity.isSome).length }

/-- `populate_zone_attributes` (lines 145-191): the zone loop; any raised
exception propagates and aborts the whole batch. -/
def populate_zone_attributes (city : PopulateCity) (zones : List PopZone) :
    Except PopulateError (List ZoneAttrs) :=
  zones.mapM (populateZone city)

lemma populateZone_error_of_clip (city : PopulateCity) (z : PopZone)
    (h1 : city.nodesIntersects z.geometry ≠ 0)
    (h2 : (city.clipPois z.geometry).isOk = false ∨
      (city.clipLanduse z.geometry).isOk = false ∨
      (city.clipBuildings z.geometry).isOk = false) :
    ∃ e, populateZone city z = .error e := by
  rw [populateZone, if_neg h1]
  cases hp : city.clipPois z.geometry with
  | error e => exact ⟨.geometry e, rfl⟩
  | ok pois =>
    cases hl : city.clipLanduse z.geometry with
    | error e => exact ⟨.geometry e, rfl⟩
    | ok landuse =>
      cases hb : city.clipBuildings z.geometry with
      | error e => exact ⟨.geometry e, rfl⟩
      | ok buildings =>
        exfalso
        rcases h2 with h | h | h
        · rw [hp] at h
          exact absurd h (by simp [Except.isOk, Except.toBool])
        · rw [hl] at h
          exact absurd h (by simp [Except.isOk, Except.toBool])
        · rw [hb] at h
          exact absurd h (by simp [Except.isOk, Except.toBool])

lemma mapM_error_of_mem (city : PopulateCity) (zones : List PopZone)
    (h : ∃ z ∈ zones, ∃ e, populateZone city z = .error e) :
    ∃ e, zones.mapM (populateZone city) = .error e := by
  induction zones with
  | nil => simp at h
  | cons z zs ih =>
    cases hz : populateZone city z with
    | error e =>
      refine ⟨e, ?_⟩
      rw [List.mapM_cons, hz]
      rfl
    | ok a =>
      obtain ⟨w, hw, e, he⟩ := h
      rcases List.mem_cons.1 hw with rfl | hwzs
      · rw [hz] at he
        exact absurd he (by simp)
      · obtain ⟨e', he'⟩ := ih ⟨w, hwzs, e, he⟩
        refine ⟨e', ?_⟩
        rw [List.mapM_cons, hz, he']
        rfl

/-- Example city whose POI clip raises for every zone while road nodes are
present. -/
def badClipCity : PopulateCity :=
  { nodesIntersects := fun _ => 1
    clipPois := fun _ => .error .invalidGeometry
    clipLanduse := fun _ => .ok []
    clipBuildings := fun _ => .ok [] }

/-- Example single-zone batch for the aggregator. -/
def badClipZones : List PopZone := [{ zone_id := 0, geometry := { area := 1 } }]

/-- C7 counterexample: when a clip raises for a zone that has road nodes,
`populate_zone_attributes` does not recover with zero attributes and
continue — the exception propagates and the whole batch aborts with an
error, returning no zone list at all. -/
theorem c7_geometry_failure_counterexample :
    populate_zone_attributes badClipCity badClipZones =
      .error (.geometry .invalidGeometry) ∧
    (populate_zone_attributes badClipCity badClipZones).isOk = false := by
  constructor <;> rfl

/-- C7 amended: `populate_zone_attributes` has no exception handling: if
any zone with road-network presence has a failing clip operation — POI,
land-use or building clip alike (lines 161-163) — the whole batch aborts
with an error (no zone list is returned); only the separate no-road-nodes
policy assigns zero attributes and continues. -/
theorem c7_geometry_failure_aborts_batch (city : PopulateCity)
    (zones : List PopZone)
    (h : ∃ z ∈ zones, city.nodesIntersects z.geometry ≠ 0 ∧
      ((city.clipPois z.geometry).isOk = false ∨
       (city.clipLanduse z.geometry).isOk = false ∨
       (city.clipBuildings z.geometry).isOk = false)) :
    ∃ e, populate_zone_attributes city zones = .error e := by
  obtain ⟨z, hz, h1, h2⟩ := h
  exact mapM_error_of_mem city zones ⟨z, hz, populateZone_error_of_clip city z h1 h2⟩

theorem c7_geometry_failure_aborts_batch_witness :
    ∃ e, populate_zone_attributes badClipCity badClipZones = .error e :=
  c7_geometry_failure_aborts_batch badClipCity badClipZones
    ⟨{ zone_id := 0, geometry := { area := 1 } }, by simp [badClipZones], by
      simp [badClipCity],
      Or.inl (by simp [badClipCity, Except.isOk, Except.toBool])⟩

/-!
## AttractionProductionScorer: `calculate_zone_attraction` (lines 193-222)
and `calculate_zone_production` (lines 224-234)

The `population` / `pois` values the scorer reads back from the zones
frame are numpy int64 scalars.  There is no zero-maximum guard anywhere in
the scorer: `pois / max_pois` and `popn / max_popn` are evaluated
unconditionally, and when a city-wide maximum is 0 the numpy scalar
division `0 / 0` produces NaN (with a RuntimeWarning), which then
propagates through every subsequent arithmetic operation.  The embedding
models a numpy scalar as `Option ℚ` with `none` standing for NaN: division
by zero produces `none` and every operation with a `none` operand
produces `none`.

(The `if 'pois' not in zone ...` guard at line 200 tests for the presence
of the frame columns, which always exist after the aggregator runs, so it
is never taken and is omitted here.)
-/

/-- numpy scalar addition: NaN propagates. -/
def npAdd : Option ℚ → Option ℚ → Option ℚ
  | some a, some b => some (a + b)
  | _, _ => none

/-- numpy scalar multiplication: NaN propagates. -/
def npMul : Option ℚ → Option ℚ → Option ℚ
  | some a, some b => some (a * b)
  | _, _ => none

/-- numpy scalar division: division by zero produces NaN (numpy emits a
RuntimeWarning instead of raising), and NaN propagates. -/
def npDiv : Option ℚ → Option ℚ → Option ℚ
  | some a, some b => if b = 0 then none else some (a / b)
  | _, _ => none

lemma npAdd_none_right (x : Option ℚ) : npAdd x none = none := by
  cases x <;> rfl

lemma npAdd_none_left (x : Option ℚ) : npAdd none x = none := rfl

lemma npMul_none_right (x : Option ℚ) : npMul x none = none := by
  cases x <;> rfl

/-- `max_pois = zones['pois'].max()` (line 194/225); the counts are
non-negative integers so the fold with initial value 0 agrees with the
pandas max on any non-empty frame. -/
def maxPois (zs : List ZoneAttrs) : ℕ :=
  (zs.map fun z => z.pois).foldr max 0

/-- `max_popn = zones['population'].max()` (line 195/226); populations are
non-negative occupancy sums. -/
def maxPopn (zs : List ZoneAttrs) : ℚ :=
  (zs.map fun z => z.population).foldr max 0

/-- `poi_score = pois / max_pois * 100.0` (line 206). -/
def poiScore (zs : List ZoneAttrs) (z : ZoneAttrs) : Option ℚ :=
  npMul (npDiv (some (z.pois : ℚ)) (some ((maxPois zs : ℕ) : ℚ))) (some 100)

/-- `pop_score = popn / max_popn * 100.0` (line 207). -/
def popScore (zs : List ZoneAttrs) (z : ZoneAttrs) : Option ℚ :=
  npMul (npDiv (some z.population) (some (maxPopn zs))) (some 100)

/-- `landuse_score` (lines 211-214): plain float arithmetic over the land
shares, no division. -/
def landuseScore (z : ZoneAttrs) (t : TimePeriod) : ℚ :=
  ∑ lt : Landuse, z.land lt * LAND_WEIGHTS lt t

/-- `calculate_zone_attraction` (lines 193-222): per zone and period the
weighted blend of poi score, population score and land-use score, keyed by
`zone_id`. -/
def calculate_zone_attraction (zs : List ZoneAttrs) :
    List (ℕ × (TimePeriod → Option ℚ)) :=
  zs.map fun z =>
    (z.zone_id, fun t =>
      npAdd (npAdd (npMul (some SCORE_POIS_WEIGHT) (poiScore zs z))
          (npMul (some SCORE_POPN_WEIGHT) (popScore zs z)))
        (npMul (some SCORE_LAND_WEIGHT) (some (landuseScore z t))))

/-- `calculate_zone_production` (lines 224-234):
`popn / max_popn * 100.0 + pois / max_pois * 100.0`, replicated over every
period, keyed by `zone_id`. -/
def calculate_zone_production (zs : List ZoneAttrs) :
    List (ℕ × (TimePeriod → Option ℚ)) :=
  zs.map fun z => (z.zone_id, fun _ => npAdd (popScore zs z) (poiScore zs z))

/-- A zone with no POI, population or land-use signal. -/
def zeroSignalZone : ZoneAttrs :=
  { zone_id := 0, population := 0, land := fun _ => 0, pois := 0 }

/-- Example zones input with no POI (and no population) signal anywhere. -/
def exampleZeroSignalZones : List ZoneAttrs := [zeroSignalZone]

/-- C4 counterexample: with a zero city-wide POI maximum (and zero
population maximum) the scorer divides `0 / 0` anyway; the score components
become NaN (`none`), not 0, and the NaN contaminates every attraction and
production value.  The claim's predicted `0` score is refuted. -/
theorem c4_scorer_zero_max_counterexample :
    maxPois exampleZeroSignalZones = 0 ∧
    (calculate_zone_attraction exampleZeroSignalZones).map
      (fun p => p.2 TimePeriod.morning) = [none] ∧
    (calculate_zone_attraction exampleZeroSignalZones).map
      (fun p => p.2 TimePeriod.morning) ≠ [some 0] ∧
    (calculate_zone_production exampleZeroSignalZones).map
      (fun p => p.2 TimePeriod.morning) = [none] := by
  have hmax : maxPois [zeroSignalZone] = 0 := rfl
  have hpoi : poiScore [zeroSignalZone] zeroSignalZone = none := by
    simp [poiScore, npDiv, npMul, hmax]
  refine ⟨hmax, ?_, ?_, ?_⟩
  · simp [calculate_zone_attraction, exampleZeroSignalZones, hpoi, npMul_none_right,
      npAdd_none_left]
  · simp [calculate_zone_attraction, exampleZeroSignalZones, hpoi, npMul_none_right,
      npAdd_none_left]
  · simp [calculate_zone_production, exampleZeroSignalZones, hpoi, npAdd_none_right]

/-- C4 amended: there is no zero-maximum guard.  When the city-wide POI
maximum is zero — or the city-wide population maximum is zero —
`calculate_zone_attraction` and `calculate_zone_production` both divide by
the zero maximum (`pois / max_pois` at line 206, `popn / max_popn` at
line 207, both again at line 232), and every zone's score for every period
is NaN (`none`) rather than 0. -/
theorem c4_scorer_zero_max_gives_nan (zs : List ZoneAttrs)
    (h : maxPois zs = 0 ∨ maxPopn zs = 0) :
    (∀ p ∈ calculate_zone_attraction zs, ∀ t, p.2 t = none) ∧
    (∀ p ∈ calculate_zone_production zs, ∀ t, p.2 t = none) := by
  rcases h with h | h
  · have hpoi : ∀ z, poiScore zs z = none := by
      intro z
      simp [poiScore, npDiv, npMul, h]
    constructor
    · intro p hp t
      obtain ⟨z, hz, rfl⟩ := List.mem_map.1 hp
      simp only [hpoi, npMul_none_right, npAdd_none_left]
    · intro p hp t
      obtain ⟨z, hz, rfl⟩ := List.mem_map.1 hp
      simp only [hpoi, npAdd_none_right]
  · have hpop : ∀ z, popScore zs z = none := by
      intro z
      simp [popScore, npDiv, npMul, h]
    constructor
    · intro p hp t
      obtain ⟨z, hz, rfl⟩ := List.mem_map.1 hp
      simp only [hpop, npMul_none_right, npAdd_none_right, npAdd_none_left]
    · intro p hp t
      obtain ⟨z, hz, rfl⟩ := List.mem_map.1 hp
      simp only [hpop, npAdd_none_left]

theorem c4_scorer_zero_max_gives_nan_witness :
    (maxPois exampleZeroSignalZones = 0 ∨ maxPopn exampleZeroSignalZones = 0) ∧
    ∀ p ∈ calculate_zone_attraction exampleZeroSignalZones, ∀ t, p.2 t = none :=
  ⟨Or.inl rfl, (c4_scorer_zero_max_gives_nan exampleZeroSignalZones (Or.inl rfl)).1⟩

/-!
## DistanceMatrixBuilder: `calculate_zone_distance` (lines 277-299)

A zone enters this function only through its centroid coordinates
`(geom.centroid.y, geom.centroid.x)` — latitude/longitude in degrees.  The
pipeline's `zone_id`s are dense and equal the row positions, so zones are
indexed by `Fin Z` and the input is the centroid map.

The nested loops visit every ordered pair `(i, j)` in row-major order,
skip the diagonal (`if i == j: continue`) and skip pairs whose cell is
already nonzero (`if distances[i][j] != 0: continue`); otherwise they
evaluate the haversine once and write it into both `(i, j)` and `(j, i)`.
The state carries, besides the matrix, a ghost counter of how many times
each ordered pair's haversine was evaluated — instrumentation for the
specification's "each unordered pair is computed once".
-/

/-- Python's `math.atan2(y, x)`. -/
noncomputable def arctan2 (y x : ℝ) : ℝ :=
  if 0 < x then Real.arctan (y / x)
  else if x < 0 ∧ 0 ≤ y then Real.arctan (y / x) + Real.pi
  else if x < 0 then Real.arctan (y / x) - Real.pi
  else if 0 < y then Real.pi / 2
  else if y < 0 then -(Real.pi / 2)
  else 0

/-- `math.radians`. -/
noncomputable def radiansOf (d : ℝ) : ℝ := d * Real.pi / 180

/-- The intermediate `a` of the haversine formula (line 284), for
coordinates `(lat, lon)` in degrees. -/
noncomputable def havA (coord1 coord2 : ℝ × ℝ) : ℝ :=
  Real.sin ((radiansOf coord2.1 - radiansOf coord1.1) / 2) ^ 2 +
    Real.cos (radiansOf coord1.1) * Real.cos (radiansOf coord2.1) *
      Real.sin ((radiansOf coord2.2 - radiansOf coord1.2) / 2) ^ 2

/-- `haversine` (lines 278-286): Earth radius 6371 km,
`c = 2 * atan2(sqrt(a), sqrt(1 - a))`, result `R * c`. -/
noncomputable def haversine (coord1 coord2 : ℝ × ℝ) : ℝ :=
  6371 * (2 * arctan2 (Real.sqrt (havA coord1 coord2))
    (Real.sqrt (1 - havA coord1 coord2)))

lemma sin_half_sq_comm (u v : ℝ) :
    Real.sin ((u - v) / 2) ^ 2 = Real.sin ((v - u) / 2) ^ 2 := by
  rw [show (u - v) / 2 = -((v - u) / 2) by ring, Real.sin_neg, neg_sq]

lemma havA_comm (c1 c2 : ℝ × ℝ) : havA c1 c2 = havA c2 c1 := by
  unfold havA
  rw [sin_half_sq_comm (radiansOf c2.1) (radiansOf c1.1),
    sin_half_sq_comm (radiansOf c2.2) (radiansOf c1.2),
    mul_comm (Real.cos (radiansOf c1.1)) (Real.cos (radiansOf c2.1))]

lemma haversine_comm (c1 c2 : ℝ × ℝ) : haversine c1 c2 = haversine c2 c1 := by
  unfold haversine
  rw [havA_comm]

lemma havA_self (c : ℝ × ℝ) : havA c c = 0 := by
  simp [havA]

lemma arctan2_zero_one : arctan2 0 1 = 0 := by
  rw [arctan2, if_pos one_pos]
  simp [Real.arctan_zero]

lemma haversine_self (c : ℝ × ℝ) : haversine c c = 0 := by
  rw [haversine, havA_self]
  simp [Real.sqrt_zero, Real.sqrt_one, arctan2_zero_one]

/-- The loop state: the distance matrix plus the ghost evaluation counter. -/
structure DistState (Z : ℕ) where
  mat : Fin Z → Fin Z → ℝ
  cnt : Fin Z → Fin Z → ℕ

/-- The pair of in-place writes `distances[idx1][idx2] = v;
distances[idx2][idx1] = distances[idx1][idx2]` (lines 296-297). -/
def updPair {Z : ℕ} (M : Fin Z → Fin Z → ℝ) (i j : Fin Z) (v : ℝ) :
    Fin Z → Fin Z → ℝ :=
  fun x y => if (x = i ∧ y = j) ∨ (x = j ∧ y = i) then v else M x y

/-- Single-cell update of the ghost counter. -/
def updCnt {Z : ℕ} (c : Fin Z → Fin Z → ℕ) (i j : Fin Z) (v : ℕ) :
    Fin Z → Fin Z → ℕ :=
  fun x y => if x = i ∧ y = j then v else c x y

open Classical in
/-- The body of the nested pair loop (lines 288-298): skip the diagonal,
skip already-written cells, otherwise evaluate the haversine of the two
centroids, mirror it into both cells and bump the ghost counter. -/
noncomputable def distStep {Z : ℕ} (cent : Fin Z → ℝ × ℝ) (s : DistState Z)
    (p : Fin Z × Fin Z) : DistState Z :=
  if p.1 = p.2 then s
  else if s.mat p.1 p.2 = 0 then
    { mat := updPair s.mat p.1 p.2 (haversine (cent p.1) (cent p.2))
      cnt := updCnt s.cnt p.1 p.2 (s.cnt p.1 p.2 + 1) }
  else s

/-- Row-major enumeration of all ordered index pairs, as produced by the
nested `for i ... for j ...` over `zones.iterrows()`. -/
def pairList (Z : ℕ) : List (Fin Z × Fin Z) :=
  (List.finRange Z).flatMap fun i => (List.finRange Z).map fun j => (i, j)

/-- `distances = [[0 ...] ...]` (line 287) with a zeroed ghost counter. -/
def initDistState (Z : ℕ) : DistState Z :=
  { mat := fun _ _ => 0, cnt := fun _ _ => 0 }

/-- The whole loop nest of `calculate_zone_distance`. -/
noncomputable def distFold (Z : ℕ) (cent : Fin Z → ℝ × ℝ) : DistState Z :=
  (pairList Z).foldl (distStep cent) (initDistState Z)

/-- `calculate_zone_distance` (lines 277-299): the final distance matrix. -/
noncomputable def calculate_zone_distance (Z : ℕ) (cent : Fin Z → ℝ × ℝ) :
    Fin Z → Fin Z → ℝ :=
  (distFold Z cent).mat

/-- Ghost observation: how many times the haversine of the ordered pair
`(i, j)` was evaluated during `calculate_zone_distance`. -/
noncomputable def distEvalCount (Z : ℕ) (cent : Fin Z → ℝ × ℝ) :
    Fin Z → Fin Z → ℕ :=
  (distFold Z cent).cnt

lemma foldl_preserve {σ ι : Type*} (P : σ → Prop) (step : σ → ι → σ)
    (l : List ι) (s : σ) (hstep : ∀ s' i, P s' → P (step s' i)) (h0 : P s) :
    P (l.foldl step s) := by
  induction l generalizing s with
  | nil => exact h0
  | cons a l ih => exact ih _ (hstep s a h0)

lemma distStep_symm {Z : ℕ} (cent : Fin Z → ℝ × ℝ) (s : DistState Z)
    (p : Fin Z × Fin Z) (h : ∀ a b, s.mat a b = s.mat b a) :
    ∀ a b, (distStep cent s p).mat a b = (distStep cent s p).mat b a := by
  rcases p with ⟨pi, pj⟩
  intro a b
  unfold distStep
  split_ifs with h1 h2
  · exact h a b
  · show updPair s.mat pi pj _ a b = updPair s.mat pi pj _ b a
    unfold updPair
    by_cases hc : (a = pi ∧ b = pj) ∨ (a = pj ∧ b = pi)
    · have hc' : (b = pi ∧ a = pj) ∨ (b = pj ∧ a = pi) := by tauto
      rw [if_pos hc, if_pos hc']
    · have hc' : ¬ ((b = pi ∧ a = pj) ∨ (b = pj ∧ a = pi)) := by tauto
      rw [if_neg hc, if_neg hc']
      exact h a b
  · exact h a b

lemma distStep_vals {Z : ℕ} (cent : Fin Z → ℝ × ℝ) (s : DistState Z)
    (p : Fin Z × Fin Z)
    (h : ∀ a b, s.mat a b = 0 ∨ s.mat a b = haversine (cent a) (cent b)) :
    ∀ a b, (distStep cent s p).mat a b = 0 ∨
      (distStep cent s p).mat a b = haversine (cent a) (cent b) := by
  rcases p with ⟨pi, pj⟩
  intro a b
  unfold distStep
  split_ifs with h1 h2
  · exact h a b
  · show updPair s.mat pi pj _ a b = 0 ∨
      updPair s.mat pi pj _ a b = haversine (cent a) (cent b)
    unfold updPair
    by_cases hc : (a = pi ∧ b = pj) ∨ (a = pj ∧ b = pi)
    · rw [if_pos hc]
      right
      rcases hc with ⟨rfl, rfl⟩ | ⟨rfl, rfl⟩
      · rfl
      · exact haversine_comm _ _
    · rw [if_neg hc]
      exact h a b
  · exact h a b

lemma mem_pairList {Z : ℕ} (p : Fin Z × Fin Z) : p ∈ pairList Z := by
  rcases p with ⟨i, j⟩
  refine (List.mem_flatMap).2 ⟨i, List.mem_finRange i, ?_⟩
  exact List.mem_map.2 ⟨j, List.mem_finRange j, rfl⟩

open Classical in
lemma distStep_eval {Z : ℕ} (cent : Fin Z → ℝ × ℝ) (s : DistState Z)
    (pi pj : Fin Z) :
    distStep cent s (pi, pj) =
      if pi = pj then s
      else if s.mat pi pj = 0 then
        { mat := updPair s.mat pi pj (haversine (cent pi) (cent pj))
          cnt := updCnt s.cnt pi pj (s.cnt pi pj + 1) }
      else s := rfl

lemma distStep_sets_value {Z : ℕ} (cent : Fin Z → ℝ × ℝ) (s : DistState Z)
    (i j : Fin Z) (hij : i ≠ j)
    (hval : s.mat i j = 0 ∨ s.mat i j = haversine (cent i) (cent j)) :
    (distStep cent s (i, j)).mat i j = haversine (cent i) (cent j) := by
  rw [distStep_eval, if_neg hij]
  by_cases h0 : s.mat i j = 0
  · rw [if_pos h0]
    show updPair s.mat i j _ i j = _
    unfold updPair
    rw [if_pos (Or.inl ⟨rfl, rfl⟩)]
  · rw [if_neg h0]
    rcases hval with hv | hv
    · exact absurd hv h0
    · exact hv

lemma distStep_keeps_value {Z : ℕ} (cent : Fin Z → ℝ × ℝ) (s : DistState Z)
    (p : Fin Z × Fin Z) (i j : Fin Z)
    (hP : s.mat i j = haversine (cent i) (cent j)) :
    (distStep cent s p).mat i j = haversine (cent i) (cent j) := by
  rcases p with ⟨pi, pj⟩
  rw [distStep_eval]
  split_ifs with h1 h2
  · exact hP
  · show updPair s.mat pi pj _ i j = _
    unfold updPair
    by_cases hc : (i = pi ∧ j = pj) ∨ (i = pj ∧ j = pi)
    · rw [if_pos hc]
      rcases hc with ⟨rfl, rfl⟩ | ⟨rfl, rfl⟩
      · rfl
      · exact haversine_comm _ _
    · rw [if_neg hc]
      exact hP
  · exact hP

lemma distFold_mat_value (Z : ℕ) (cent : Fin Z → ℝ × ℝ) (i j : Fin Z)
    (hij : i ≠ j) :
    (distFold Z cent).mat i j = haversine (cent i) (cent j) := by
  obtain ⟨l1, l2, hsplit⟩ := List.append_of_mem (mem_pairList (i, j))
  rw [distFold, hsplit, List.foldl_append, List.foldl_cons]
  have hvals : ∀ a b, (l1.foldl (distStep cent) (initDistState Z)).mat a b = 0 ∨
      (l1.foldl (distStep cent) (initDistState Z)).mat a b =
        haversine (cent a) (cent b) :=
    foldl_preserve
      (fun s => ∀ a b, s.mat a b = 0 ∨ s.mat a b = haversine (cent a) (cent b))
      (distStep cent) l1 (initDistState Z)
      (fun s' p hs' => distStep_vals cent s' p hs') (fun a b => Or.inl rfl)
  exact foldl_preserve (fun s => s.mat i j = haversine (cent i) (cent j))
    (distStep cent) l2 _
    (fun s' p hP => distStep_keeps_value cent s' p i j hP)
    (distStep_sets_value cent _ i j hij (hvals i j))

/-- Invariant tying the matrix and the ghost counter together: an
unordered pair is either untouched (cell 0, both counters 0) or has been
evaluated exactly once in total and mirrored. -/
def cntInv (Z : ℕ) (cent : Fin Z → ℝ × ℝ) (s : DistState Z) : Prop :=
  ∀ a b, a ≠ b →
    (s.mat a b = 0 ∧ s.cnt a b = 0 ∧ s.cnt b a = 0) ∨
    (s.mat a b = haversine (cent a) (cent b) ∧ s.cnt a b + s.cnt b a = 1)

lemma distStep_cntInv (Z : ℕ) (cent : Fin Z → ℝ × ℝ)
    (H : ∀ a b : Fin Z, a ≠ b → haversine (cent a) (cent b) ≠ 0)
    (s : DistState Z) (p : Fin Z × Fin Z) (h : cntInv Z cent s) :
    cntInv Z cent (distStep cent s p) := by
  rcases p with ⟨pi, pj⟩
  rw [distStep_eval]
  split_ifs with h1 h2
  · exact h
  · intro a b hab
    have hpij : pi ≠ pj := h1
    have hfirst : s.cnt pi pj = 0 ∧ s.cnt pj pi = 0 := by
      rcases h pi pj hpij with ⟨-, c1, c2⟩ | ⟨hm, -⟩
      · exact ⟨c1, c2⟩
      · rw [hm] at h2
        exact absurd h2 (H pi pj hpij)
    dsimp only
    by_cases hc1 : a = pi ∧ b = pj
    · obtain ⟨rfl, rfl⟩ := hc1
      right
      refine ⟨?_, ?_⟩
      · unfold updPair
        rw [if_pos (Or.inl ⟨rfl, rfl⟩)]
      · unfold updCnt
        rw [if_pos ⟨rfl, rfl⟩, if_neg (by rintro ⟨h', -⟩; exact hab h'.symm),
          hfirst.1, hfirst.2]
    · by_cases hc2 : a = pj ∧ b = pi
      · obtain ⟨rfl, rfl⟩ := hc2
        right
        refine ⟨?_, ?_⟩
        · unfold updPair
          rw [if_pos (Or.inr ⟨rfl, rfl⟩)]
          exact haversine_comm _ _
        · unfold updCnt
          rw [if_neg (by rintro ⟨h', -⟩; exact hab h'), if_pos ⟨rfl, rfl⟩,
            hfirst.1, hfirst.2]
      · have hmat : updPair s.mat pi pj (haversine (cent pi) (cent pj)) a b =
            s.mat a b := by
          unfold updPair
          rw [if_neg (by tauto)]
        have hcab : updCnt s.cnt pi pj (s.cnt pi pj + 1) a b = s.cnt a b := by
          unfold updCnt
          rw [if_neg hc1]
        have hcba : updCnt s.cnt pi pj (s.cnt pi pj + 1) b a = s.cnt b a := by
          unfold updCnt
          rw [if_neg (by tauto)]
        rw [hmat, hcab, hcba]
        exact h a b hab
  · exact h

lemma distFold_mat_symm (Z : ℕ) (cent : Fin Z → ℝ × ℝ) :
    ∀ i j, (distFold Z cent).mat i j = (distFold Z cent).mat j i :=
  foldl_preserve (fun s => ∀ a b, s.mat a b = s.mat b a) (distStep cent)
    (pairList Z) (initDistState Z) (fun s p hs => distStep_symm cent s p hs)
    (fun _ _ => rfl)

lemma distFold_count_one (Z : ℕ) (cent : Fin Z → ℝ × ℝ)
    (H : ∀ a b : Fin Z, a ≠ b → haversine (cent a) (cent b) ≠ 0)
    (i j : Fin Z) (hij : i ≠ j) :
    distEvalCount Z cent i j + distEvalCount Z cent j i = 1 := by
  have hinv : cntInv Z cent (distFold Z cent) :=
    foldl_preserve (cntInv Z cent) (distStep cent) (pairList Z) (initDistState Z)
      (fun s p hs => distStep_cntInv Z cent H s p hs)
      (fun _ _ _ => Or.inl ⟨rfl, rfl, rfl⟩)
  rcases hinv i j hij with ⟨hm, -, -⟩ | ⟨-, hsum⟩
  · rw [distFold_mat_value Z cent i j hij] at hm
    exact absurd hm (H i j hij)
  · exact hsum

lemma tripsDenominator_congr (Z : ℕ) (attraction : Fin Z → TimePeriod → ℝ)
    (d d' : Fin Z → Fin Z → ℝ) (h : ∀ i j, i ≠ j → d i j = d' i j) :
    tripsDenominator Z attraction d = tripsDenominator Z attraction d' := by
  funext i t
  unfold tripsDenominator
  refine Finset.sum_congr rfl ?_
  intro j hj
  rw [h i j (Ne.symm (Finset.ne_of_mem_erase hj))]

lemma gravity_ignores_diagonal (Z : ℕ)
    (production attraction : Fin Z → TimePeriod → ℝ)
    (d d' : Fin Z → Fin Z → ℝ) (h : ∀ i j, i ≠ j → d i j = d' i j) :
    gravity_model_demand_matrix Z production attraction d =
      gravity_model_demand_matrix Z production attraction d' := by
  have hden := tripsDenominator_congr Z attraction d d' h
  have hcond1 : (∃ i j : Fin Z, i ≠ j ∧ d i j ^ GRAVITY_BETA = 0) =
      (∃ i j : Fin Z, i ≠ j ∧ d' i j ^ GRAVITY_BETA = 0) := by
    refine propext ⟨?_, ?_⟩
    · rintro ⟨i, j, hij, hz⟩
      exact ⟨i, j, hij, by rw [← h i j hij]; exact hz⟩
    · rintro ⟨i, j, hij, hz⟩
      exact ⟨i, j, hij, by rw [h i j hij]; exact hz⟩
  have hentries : gravityEntries Z production attraction d =
      gravityEntries Z production attraction d' := by
    funext i j t
    unfold gravityEntries
    rw [hden]
    by_cases hij : i = j
    · rw [if_pos hij, if_pos hij]
    · rw [if_neg hij, if_neg hij, h i j hij]
  unfold gravity_model_demand_matrix
  rw [hden, hentries]
  exact if_congr (iff_of_eq hcond1) rfl rfl

/-- Example centroids: (0°N, 0°E) and (0°N, 90°E). -/
noncomputable def exampleCentroids : Fin 2 → ℝ × ℝ :=
  fun k => if k = 0 then ((0 : ℝ), (0 : ℝ)) else ((0 : ℝ), (90 : ℝ))

/-- Two distinct zones with identical centroids. -/
noncomputable def sameCentroids : Fin 2 → ℝ × ℝ := fun _ => ((0 : ℝ), (0 : ℝ))

lemma radiansOf_zero : radiansOf 0 = 0 := by
  simp [radiansOf]

lemma radiansOf_ninety : radiansOf 90 = Real.pi / 2 := by
  unfold radiansOf
  ring

lemma havA_0_90 : havA ((0 : ℝ), (0 : ℝ)) ((0 : ℝ), (90 : ℝ)) = 1 / 2 := by
  unfold havA
  simp only [radiansOf_zero, radiansOf_ninety]
  rw [show ((Real.pi / 2 - 0) / 2) = Real.pi / 4 by ring]
  rw [Real.sin_pi_div_four]
  rw [show ((0 : ℝ) - 0) / 2 = 0 by ring, Real.sin_zero, Real.cos_zero]
  rw [show (Real.sqrt 2 / 2) ^ 2 = Real.sqrt 2 ^ 2 / 4 by ring, Real.sq_sqrt (by norm_num)]
  norm_num

lemma haversine_0_90 :
    haversine ((0 : ℝ), (0 : ℝ)) ((0 : ℝ), (90 : ℝ)) = 6371 * Real.pi / 2 := by
  unfold haversine
  rw [havA_0_90, show (1 : ℝ) - 1 / 2 = 1 / 2 by norm_num]
  have hpos : 0 < Real.sqrt (1 / 2) := Real.sqrt_pos.2 (by norm_num)
  rw [arctan2, if_pos hpos, div_self hpos.ne', Real.arctan_one]
  ring

lemma exampleCentroids_hav_ne :
    ∀ a b : Fin 2, a ≠ b → haversine (exampleCentroids a) (exampleCentroids b) ≠ 0 := by
  have hne : (6371 : ℝ) * Real.pi / 2 ≠ 0 := by
    have : 0 < (6371 : ℝ) * Real.pi / 2 := by positivity
    exact this.ne'
  intro a b hab
  fin_cases a <;> fin_cases b
  · exact absurd rfl hab
  · show haversine (exampleCentroids 0) (exampleCentroids 1) ≠ 0
    rw [show exampleCentroids 0 = ((0 : ℝ), (0 : ℝ)) from rfl,
      show exampleCentroids 1 = ((0 : ℝ), (90 : ℝ)) from rfl, haversine_0_90]
    exact hne
  · show haversine (exampleCentroids 1) (exampleCentroids 0) ≠ 0
    rw [show exampleCentroids 1 = ((0 : ℝ), (90 : ℝ)) from rfl,
      show exampleCentroids 0 = ((0 : ℝ), (0 : ℝ)) from rfl, haversine_comm,
      haversine_0_90]
    exact hne
  · exact absurd rfl hab

/-- C6 amended: the matrix produced by `calculate_zone_distance` is fully
symmetric; every off-diagonal cell holds the haversine distance of the two
centroids (a single computation mirrored into both cells); whenever all
inter-centroid distances are nonzero — the only situation in which the
`distances[i][j] != 0` skip can tell "already computed" from "not yet
computed" — each unordered pair is evaluated exactly once; and the solver
never consults the diagonal: its result only depends on the off-diagonal
entries of the distance matrix. -/
theorem c6_distance_matrix_symmetric (Z : ℕ) (cent : Fin Z → ℝ × ℝ) :
    (∀ i j, calculate_zone_distance Z cent i j = calculate_zone_distance Z cent j i) ∧
    (∀ i j, i ≠ j →
      calculate_zone_distance Z cent i j = haversine (cent i) (cent j)) ∧
    ((∀ a b : Fin Z, a ≠ b → haversine (cent a) (cent b) ≠ 0) →
      ∀ i j, i ≠ j → distEvalCount Z cent i j + distEvalCount Z cent j i = 1) ∧
    (∀ (production attraction : Fin Z → TimePeriod → ℝ)
      (d d' : Fin Z → Fin Z → ℝ), (∀ i j, i ≠ j → d i j = d' i j) →
      gravity_model_demand_matrix Z production attraction d =
        gravity_model_demand_matrix Z production attraction d') :=
  ⟨distFold_mat_symm Z cent,
    fun i j hij => distFold_mat_value Z cent i j hij,
    fun H i j hij => distFold_count_one Z cent H i j hij,
    fun production attraction d d' h =>
      gravity_ignores_diagonal Z production attraction d d' h⟩

theorem c6_distance_matrix_symmetric_witness :
    ((0 : Fin 2) ≠ 1) ∧
    distEvalCount 2 exampleCentroids 0 1 + distEvalCount 2 exampleCentroids 1 0 = 1 :=
  ⟨by decide, (c6_distance_matrix_symmetric 2 exampleCentroids).2.2.1
    exampleCentroids_hav_ne 0 1 (by decide)⟩

lemma sameCentroids_hav (x y : Fin 2) :
    haversine (sameCentroids x) (sameCentroids y) = 0 :=
  haversine_self ((0 : ℝ), (0 : ℝ))

/-- C6 counterexample: with two distinct zones whose centroids coincide,
the computed distance is 0, so the `distances[i][j] != 0` skip never sees
the pair as already computed and the haversine of the unordered pair
{0, 1} is evaluated twice (once per direction) — refuting "each unordered
pair is computed once". -/
theorem c6_pair_computed_twice_counterexample :
    distEvalCount 2 sameCentroids 0 1 + distEvalCount 2 sameCentroids 1 0 = 2 ∧
    ¬ (distEvalCount 2 sameCentroids 0 1 + distEvalCount 2 sameCentroids 1 0 = 1) := by
  have hpl : pairList 2 =
      [((0 : Fin 2), (0 : Fin 2)), (0, 1), (1, 0), (1, 1)] := by decide
  have heval : distEvalCount 2 sameCentroids 0 1 = 1 ∧
      distEvalCount 2 sameCentroids 1 0 = 1 := by
    unfold distEvalCount distFold
    rw [hpl]
    simp only [List.foldl_cons, List.foldl_nil, distStep_eval]
    simp +decide only [sameCentroids_hav, updPair, updCnt, initDistState,
      reduceIte, Fin.isValue]
  rw [heval.1, heval.2]
  norm_num

/-- C8 counterexample: no flooring exists.  Two distinct zones with
coincident centroids get the exact inter-zone distance 0 from
`calculate_zone_distance` — not a small positive minimum — so the value
handed to the solver's inverse-power impedance is zero. -/
theorem c8_no_flooring_counterexample :
    calculate_zone_distance 2 sameCentroids 0 1 = 0 ∧
    ¬ (0 < calculate_zone_distance 2 sameCentroids 0 1) := by
  have h : calculate_zone_distance 2 sameCentroids 0 1 = 0 := by
    rw [calculate_zone_distance, distFold_mat_value 2 sameCentroids 0 1 (by decide)]
    exact sameCentroids_hav 0 1
  exact ⟨h, by rw [h]; exact lt_irrefl 0⟩

/-- C8 amended: distances are not floored; instead, when a zero distance
between distinct zones reaches the solver, the impedance computation
`1 / (distance ** GRAVITY_BETA)` divides by zero and the solve aborts with
an error for the whole run, so no demand matrix with infinite impedance is
ever produced. -/
theorem c8_zero_distance_solver_fatal (Z : ℕ)
    (production attraction : Fin Z → TimePeriod → ℝ)
    (distances : Fin Z → Fin Z → ℝ)
    (h : ∃ i j : Fin Z, i ≠ j ∧ distances i j ^ GRAVITY_BETA = 0) :
    ∃ e, gravity_model_demand_matrix Z production attraction distances = .error e :=
  ⟨.zeroDistanceImpedance, by simp [gravity_model_demand_matrix, h]⟩

/-- Example all-zero distance matrix. -/
noncomputable def zeroDistances : Fin 2 → Fin 2 → ℝ := fun _ _ => 0

theorem c8_zero_distance_solver_fatal_witness :
    ((0 : Fin 2) ≠ 1 ∧ zeroDistances 0 1 ^ GRAVITY_BETA = 0) ∧
    ∃ e, gravity_model_demand_matrix 2 exampleProduction exampleAttraction
      zeroDistances = .error e :=
  ⟨⟨by decide, by
      rw [show zeroDistances 0 1 = 0 from rfl]
      exact Real.zero_rpow (by norm_num [GRAVITY_BETA])⟩,
    c8_zero_distance_solver_fatal 2 exampleProduction exampleAttraction zeroDistances
      ⟨0, 1, by decide, by
        rw [show zeroDistances 0 1 = 0 from rfl]
        exact Real.zero_rpow (by norm_num [GRAVITY_BETA])⟩⟩
